import Mathlib

/-!
Verification development for the pycalc Sublime Text plugin (src/pycalc.py).

The REPL core of the plugin is shallowly embedded below:

* `EvalResult` models the result dictionaries flowing through the output
  queue: the empty dict `{}` (the timeout/fault placeholder) or a two-field
  dict `{"stdout": ..., "stderr": ...}` as produced by `interact`.
* `Repl` abstracts the interpreter object (`code.InteractiveConsole`): the
  three operations `interact` invokes (`resetbuffer`, `runcode`, `push`),
  each returning captured stdout/stderr text, a possibly raised exception
  escaping to `interact`, and the successor session state.
* `interact` is the embedding of the function `interact(repl, line)`
  (src/pycalc.py lines 57-79), parametric in the interpreter.
* `InteractiveConsole` is a concrete executable model of the CPython
  interactive console over a miniature Python fragment (integer literals,
  `+`, names, assignment, `print(...)`, single-parameter `def` with a
  `return` body, calls), sufficient to run the concrete snippets the
  specification discusses.  Mode semantics follow CPython: `push` uses
  `codeop`-style incremental compilation with a pending-line buffer and
  `single`-mode display of expression-statement values; `runcode` execs the
  text as a complete block (no display of expression values) and shows any
  error as text on stderr, never re-raising.
* `worker`, `execute_python_code`, `print_result` and the queue model
  follow the remaining source functions.

Machine strings are Lean `String`s; Python ints are `Int`; exceptions are
an explicit datatype rendered to message text (the exact message wording of
CPython is abbreviated, no claim depends on it).
-/

namespace Pycalc

/-- A Python exception value, as far as the plugin can observe one. -/
inductive PyExn where
  | nameError (x : String)
  | typeError
  | zeroDivisionError
  | recursionError
  | compileError
deriving DecidableEq, Repr

/-- The message line of an exception (CPython prints `NameError: name ...`;
the wording is modelled, no claim depends on the exact text). -/
def PyExn.message : PyExn → String
  | .nameError x => "NameError: name " ++ x ++ " is not defined"
  | .typeError => "TypeError: unsupported operand or call"
  | .zeroDivisionError => "ZeroDivisionError: division by zero"
  | .recursionError => "RecursionError: maximum recursion depth exceeded"
  | .compileError => "SyntaxError: invalid input"

/-- `repr(e)` as written by the `except BaseException` handler in `interact`. -/
def pyRepr (e : PyExn) : String := "repr(" ++ e.message ++ ")"

/-- Text produced by `InteractiveInterpreter.showtraceback` /
`showsyntaxerror` on the captured stderr stream. -/
def tracebackOf (e : PyExn) : String :=
  "Traceback (most recent call last):\n" ++ e.message ++ "\n"

/-- The result dictionaries placed on the output queue: `{}` (placeholder)
or `{"stdout": out, "stderr": err}` as built by `interact`. -/
inductive EvalResult where
  | empty
  | mk (stdout stderr : String)
deriving DecidableEq, Repr

/-- Outcome of one interpreter operation under redirected streams: text
written to the redirected stdout/stderr, an exception escaping the
operation (caught by `interact`), and the mutated session state. -/
structure EvalOutcome (σ : Type) where
  raised : Option PyExn
  out : String
  err : String
  state : σ
deriving DecidableEq, Repr

/-- The interface of the interpreter object as used by `interact`:
`resetbuffer`, `runcode` and `push` of `code.InteractiveConsole`. -/
structure Repl (σ : Type) where
  resetbuffer : σ → σ
  runcode : String → σ → EvalOutcome σ
  push : String → σ → EvalOutcome σ

/-- Python `str.strip()` whitespace set (ASCII part). -/
def isPySpace (c : Char) : Bool :=
  c = ' ' || c = '\t' || c = '\n' || c = '\r' || c = '\x0b' || c = '\x0c'

/-- Python `str.strip()`. -/
def pyStrip (s : String) : String :=
  String.mk (((s.data.dropWhile isPySpace).reverse.dropWhile isPySpace).reverse)

/-- Lines 75-77 of the source: the captured stdout is suppressed exactly
when it equals the stripped input line followed by one newline. -/
def cleanupEcho (line buffer : String) : String :=
  if buffer = pyStrip line ++ "\n" then "" else buffer

/-- The `if`/`else` inside the `with` block of `interact`: block mode
(`'1'`) resets the pending buffer and execs the text, any other mode flag
pushes the text with incremental REPL semantics. -/
def interactEval (repl : Repl σ) (st : σ) (c : Char) (rest : List Char) :
    EvalOutcome σ :=
  if c = '1' then repl.runcode (String.mk rest) (repl.resetbuffer st)
  else repl.push (String.mk rest) st

/-- Contents of the redirected stderr buffer when `interact` builds its
result: whatever the evaluation wrote, followed by `repr(e)` if an
exception escaped the evaluation and was caught by `except BaseException`. -/
def interactErrText (o : EvalOutcome σ) : String :=
  match o.raised with
  | some e => o.err ++ pyRepr e
  | none => o.err

/-- `interact(repl, line)` (src/pycalc.py lines 57-79).  The return type
admits exception propagation (`.error`); the source's `except
BaseException` handler converts every raised exception into stderr text, so
the `.error` branch is in fact never taken (theorem `interact_never_propagates`). -/
def interact (repl : Repl σ) (st : σ) (line : String) :
    Except PyExn (σ × EvalResult) :=
  match line.data with
  | [] => .ok (st, .empty)
  | c :: rest =>
    let o := interactEval repl st c rest
    .ok (o.state, .mk (cleanupEcho (String.mk rest) o.out) (interactErrText o))

/-- One event observed by the worker loop body per iteration: a dequeued
snippet, an `Empty` timeout of `queue_in.get`, or an internal fault (the
`except Exception` path) raised elsewhere in the `try` block. -/
inductive WorkerEvent where
  | recv (line : String)
  | timeout
  | fault
deriving DecidableEq, Repr

/-- One iteration of the `while True` body of `worker` (src/pycalc.py
lines 96-104): the successor session state and the list of results put on
the output queue during the iteration. -/
def workerStep (repl : Repl σ) (st : σ) (ev : WorkerEvent) :
    σ × List EvalResult :=
  match ev with
  | .recv line =>
    match interact repl st line with
    | .ok (st2, r) => (st2, [r])
    | .error _ => (st, [EvalResult.empty])
  | .timeout => (st, [EvalResult.empty])
  | .fault => (st, [EvalResult.empty])

/-- The worker loop run over a finite prefix of its (infinite) event
stream, threading the interpreter session and concatenating the published
results.  The initial state abstracts the session produced by the
`help`-shim injection at worker start-up. -/
def workerRun (repl : Repl σ) : σ → List WorkerEvent → σ × List EvalResult
  | st, [] => (st, [])
  | st, ev :: evs =>
    let p := workerStep repl st ev
    let q := workerRun repl p.1 evs
    (q.1, p.2 ++ q.2)

/-- `queue.Queue` as far as the plugin uses it: `maxsize` (`0` meaning
unbounded, as in CPython) and the FIFO contents. -/
structure PyQueue (α : Type) where
  maxsize : Nat
  items : List α
deriving DecidableEq, Repr

/-- CPython `Queue.full()`: only a positive `maxsize` can be reached. -/
def PyQueue.full (q : PyQueue α) : Bool :=
  0 < q.maxsize && q.maxsize ≤ q.items.length

/-- Blocking `put`: `none` means the caller blocks (the queue is full). -/
def PyQueue.put (q : PyQueue α) (a : α) : Option (PyQueue α) :=
  if q.full then none else some ⟨q.maxsize, q.items ++ [a]⟩

/-- Blocking `get` with timeout: `none` means no item arrived (timeout). -/
def PyQueue.get (q : PyQueue α) : Option (α × PyQueue α) :=
  match q.items with
  | [] => none
  | a :: rest => some (a, ⟨q.maxsize, rest⟩)

/-- `queue_input = Queue()` (line 13): unbounded. -/
def queue_input : PyQueue String := ⟨0, []⟩

/-- `queue_output = Queue(maxsize=256)` (line 14): bounded. -/
def queue_output : PyQueue EvalResult := ⟨256, []⟩

/-- The tagged snippet built by `execute_python_code` (lines 117-123). -/
def tagSnippet (code : String) (multiline : Bool) : String :=
  (if multiline then "1" else "0") ++ code

/-- `execute_python_code` enqueues the tagged snippet on the input queue. -/
def execute_python_code (code : String) (multiline : Bool)
    (q : PyQueue String) : Option (PyQueue String) :=
  q.put (tagSnippet code multiline)

/-- What one invocation of `print_result` can do to its collaborators. -/
structure PumpEffect where
  inserted : Option String
  panel : Option String
  prompted : Bool
  exited : Bool
  rescheduled : Bool
deriving DecidableEq, Repr

/-- What `queue_output.get(timeout=30)` yielded for one pump invocation. -/
inductive Dequeue where
  | got (r : EvalResult)
  | timeout
deriving DecidableEq, Repr

/-- One invocation of `print_result` (src/pycalc.py lines 135-167).
`d` is the dequeue outcome and `userYes` the answer to the termination
dialog should it be shown.  The local `queue_count` is modelled exactly as
in the source: initialised to `0` at entry, incremented after a successful
dequeue; since the single `get` is the only statement that can raise
`Empty`, the counter is still `0` whenever the `except Empty` handler runs. -/
def print_result (d : Dequeue) (userYes : Bool) : PumpEffect :=
  let queue_count : Nat := 0
  match d with
  | .got r =>
    let _queue_count := queue_count + 1
    match r with
    | .empty =>
      { inserted := none, panel := none, prompted := false,
        exited := false, rescheduled := true }
    | .mk out err =>
      { inserted := if out = "" then none else some out,
        panel := if err = "" then none else some err,
        prompted := false, exited := false, rescheduled := true }
  | .timeout =>
    if queue_count ≠ 0 then
      { inserted := none, panel := none, prompted := false,
        exited := false, rescheduled := true }
    else if userYes then
      { inserted := none, panel := none, prompted := true,
        exited := true, rescheduled := false }
    else
      { inserted := none, panel := none, prompted := true,
        exited := false, rescheduled := true }

/-- The chain of pump invocations over a sequence of dequeue outcomes, the
user always declining termination; records whether each invocation showed
the termination prompt.  The chain stops if an invocation does not
reschedule itself. -/
def pumpPrompts : List Dequeue → List Bool
  | [] => []
  | d :: ds =>
    let e := print_result d false
    if e.rescheduled then e.prompted :: pumpPrompts ds else [e.prompted]

/-- The prompting policy claim C1 describes (not the source's): prompt on a
timeout only when it is the first timeout since the last successful
dequeue; the `Bool` argument records whether the previous invocation in the
same waiting episode already timed out. -/
def claimedPromptPolicy : Bool → List Dequeue → List Bool
  | _, [] => []
  | _, .got _ :: ds => false :: claimedPromptPolicy false ds
  | prev, .timeout :: ds => (!prev) :: claimedPromptPolicy true ds

/-!
## Concrete model of `code.InteractiveConsole`

A miniature Python fragment, large enough to execute the snippets the
specification exercises: integer literals, names, `+`, calls of
single-parameter functions, assignment, `print(...)` at statement level,
and single-parameter `def` with a `return` body.  `print` is modelled as a
statement form (its value is `None`, so the `single`-mode display hook
stays silent on it, matching CPython observably); other builtins are not
modelled.
-/

/-- Expressions of the modelled fragment. -/
inductive Expr where
  | lit (n : Int)
  | var (x : String)
  | add (a b : Expr)
  | call (f : String) (arg : Expr)
deriving DecidableEq, Repr

/-- Statements of the modelled fragment. -/
inductive Stmt where
  | expr (e : Expr)
  | assign (x : String) (e : Expr)
  | print (e : Expr)
  | defFun (f param : String) (body : Expr)
deriving DecidableEq, Repr

/-- Runtime values. -/
inductive Val where
  | int (n : Int)
  | none
  | fn (param : String) (body : Expr)
deriving DecidableEq, Repr

/-- The session namespace, newest binding first (assignment shadows). -/
abbrev Globals := List (String × Val)

def lookupVar : Globals → String → Option Val
  | [], _ => Option.none
  | (y, v) :: g, x => if y = x then some v else lookupVar g x

/-- `str`/`repr` of a value (identical on the values we print). -/
def strOfVal : Val → String
  | .int n => toString n
  | .none => "None"
  | .fn _ _ => "<function>"

/-- The `single`-mode display hook: prints `repr` of a non-`None`
expression-statement value. -/
def displayhook (v : Val) : String :=
  match v with
  | .none => ""
  | v => strOfVal v ++ "\n"

/-- Expression evaluation; the fuel bounds call depth, standing in for the
CPython recursion limit.  Name resolution is locals (the enclosing call's
parameter binding) first, then the session globals, as in CPython. -/
def evalExpr : Nat → Globals → Globals → Expr → Except PyExn Val
  | 0, _, _, _ => .error .recursionError
  | _ + 1, _, _, .lit n => .ok (.int n)
  | _ + 1, loc, g, .var x =>
    match lookupVar loc x with
    | some v => .ok v
    | Option.none =>
      match lookupVar g x with
      | some v => .ok v
      | Option.none => .error (.nameError x)
  | f + 1, loc, g, .add a b => do
    let va ← evalExpr f loc g a
    let vb ← evalExpr f loc g b
    match va, vb with
    | .int m, .int n => .ok (.int (m + n))
    | _, _ => .error .typeError
  | f + 1, loc, g, .call fname arg => do
    let va ← evalExpr f loc g arg
    match (lookupVar loc fname).orElse (fun _ => lookupVar g fname) with
    | some (.fn p body) => evalExpr f [(p, va)] g body
    | some _ => .error .typeError
    | Option.none => .error (.nameError fname)

/-- Recursion-limit stand-in, ample for every snippet of interest. -/
def evalFuel : Nat := 1000

/-- Execute one statement at module level (`locals` = `globals` there, so
locals are passed empty).  `interactive` selects `single` compilation mode,
where expression-statement values go through the display hook. -/
def execStmt (interactive : Bool) (g : Globals) :
    Stmt → Globals × String × Option PyExn
  | .expr e =>
    match evalExpr evalFuel [] g e with
    | .ok v => (g, (if interactive then displayhook v else ""), Option.none)
    | .error ex => (g, "", some ex)
  | .assign x e =>
    match evalExpr evalFuel [] g e with
    | .ok v => ((x, v) :: g, "", Option.none)
    | .error ex => (g, "", some ex)
  | .print e =>
    match evalExpr evalFuel [] g e with
    | .ok v => (g, strOfVal v ++ "\n", Option.none)
    | .error ex => (g, "", some ex)
  | .defFun f p body => ((f, .fn p body) :: g, "", Option.none)

/-- Execute a statement sequence, stopping at the first exception and
accumulating the stdout text written so far. -/
def execProg (interactive : Bool) (g : Globals) :
    List Stmt → Globals × String × Option PyExn
  | [] => (g, "", Option.none)
  | s :: rest =>
    let r1 := execStmt interactive g s
    match r1.2.2 with
    | some e => (r1.1, r1.2.1, some e)
    | Option.none =>
      let r2 := execProg interactive r1.1 rest
      (r2.1, r1.2.1 ++ r2.2.1, r2.2.2)

/-- Tokens of the modelled fragment. -/
inductive Tok where
  | int (n : Nat)
  | ident (s : String)
  | plus
  | lparen
  | rparen
  | colon
  | eq
deriving DecidableEq, Repr

def isIdentStart (c : Char) : Bool := c.isAlpha || c = '_'

def isIdentChar (c : Char) : Bool := c.isAlpha || c.isDigit || c = '_'

def digitsToNat (cs : List Char) : Nat :=
  cs.foldl (fun n c => 10 * n + (c.toNat - '0'.toNat)) 0

/-- Fuel-indexed tokenizer; the fuel is instantiated with the input length,
which suffices since every step consumes at least one character. -/
def tokenizeF : Nat → List Char → Option (List Tok)
  | _, [] => some []
  | 0, _ :: _ => Option.none
  | f + 1, c :: rest =>
    if c = ' ' || c = '\t' then tokenizeF f rest
    else if c.isDigit then
      let ds := rest.takeWhile Char.isDigit
      let rest2 := rest.dropWhile Char.isDigit
      (tokenizeF f rest2).map (Tok.int (digitsToNat (c :: ds)) :: ·)
    else if isIdentStart c then
      let ds := rest.takeWhile isIdentChar
      let rest2 := rest.dropWhile isIdentChar
      (tokenizeF f rest2).map (Tok.ident (String.mk (c :: ds)) :: ·)
    else if c = '+' then (tokenizeF f rest).map (Tok.plus :: ·)
    else if c = '(' then (tokenizeF f rest).map (Tok.lparen :: ·)
    else if c = ')' then (tokenizeF f rest).map (Tok.rparen :: ·)
    else if c = ':' then (tokenizeF f rest).map (Tok.colon :: ·)
    else if c = '=' then (tokenizeF f rest).map (Tok.eq :: ·)
    else Option.none

def tokenize (cs : List Char) : Option (List Tok) := tokenizeF cs.length cs

/-- Fuel-indexed expression parsing: one atom (literal, call, name),
optionally followed by `+` and a further expression.  Addition associates
to the right here; on the modelled integer values this is observably the
same as CPython's left association. -/
def parseExprF : Nat → List Tok → Option (Expr × List Tok)
  | 0, _ => Option.none
  | f + 1, ts =>
    let atom? : Option (Expr × List Tok) :=
      match ts with
      | .int n :: rest => some (.lit (Int.ofNat n), rest)
      | .ident x :: .lparen :: rest =>
        match parseExprF f rest with
        | some (a, .rparen :: rest2) => some (.call x a, rest2)
        | _ => Option.none
      | .ident x :: rest => some (.var x, rest)
      | _ => Option.none
    match atom? with
    | Option.none => Option.none
    | some (a, rest) =>
      match rest with
      | .plus :: rest2 =>
        match parseExprF f rest2 with
        | some (b, rest3) => some (.add a b, rest3)
        | _ => Option.none
      | _ => some (a, rest)

def parseExprToks (ts : List Tok) : Option (Expr × List Tok) :=
  parseExprF (ts.length + 1) ts

/-- Shape of one physical source line. -/
inductive ParsedLine where
  | blank
  | stmt (s : Stmt)
  | defHeader (f param : String)
  | defLine (f param : String) (body : Expr)
  | retLine (e : Expr)
  | bad
deriving DecidableEq, Repr

def parseToks : List Tok → ParsedLine
  | [] => .blank
  | .ident "def" :: .ident f :: .lparen :: .ident p :: .rparen :: .colon :: rest =>
    (match rest with
     | [] => .defHeader f p
     | .ident "return" :: more =>
       match parseExprToks more with
       | some (e, []) => .defLine f p e
       | _ => .bad
     | _ => .bad)
  | .ident "return" :: more =>
    (match parseExprToks more with
     | some (e, []) => .retLine e
     | _ => .bad)
  | .ident "print" :: .lparen :: more =>
    (match parseExprToks more with
     | some (e, [.rparen]) => .stmt (.print e)
     | _ => .bad)
  | .ident x :: .eq :: more =>
    (match parseExprToks more with
     | some (e, []) => .stmt (.assign x e)
     | _ => .bad)
  | ts =>
    match parseExprToks ts with
    | some (e, []) => .stmt (.expr e)
    | _ => .bad

def parsedOf (l : List Char) : ParsedLine :=
  match tokenize l with
  | some ts => parseToks ts
  | Option.none => .bad

/-- Result of `codeop`-style compilation: runnable code, "needs more
input", or a compile-time error. -/
inductive Compiled where
  | complete (prog : List Stmt)
  | incomplete
  | badInput
deriving DecidableEq, Repr

/-- Physical lines of a source text (`"\n"`-separated). -/
def splitLines : List Char → List (List Char)
  | [] => [[]]
  | '\n' :: rest => [] :: splitLines rest
  | c :: rest =>
    match splitLines rest with
    | [] => [[c]]
    | l :: ls => (c :: l) :: ls

/-- A continuation line of a `def` block: must be indented and consist of a
`return` expression. -/
def indentedRet (l : List Char) : Option Expr :=
  match l with
  | c :: _ =>
    if c = ' ' || c = '\t' then
      match parsedOf l with
      | .retLine e => some e
      | _ => Option.none
    else Option.none
  | [] => Option.none

/-- A complete `def` block spelled over one or two physical lines. -/
def parseDefBlock : List (List Char) → Option Stmt
  | [l] =>
    (match parsedOf l with
     | .defLine f p e => some (.defFun f p e)
     | _ => Option.none)
  | [l1, l2] =>
    (match parsedOf l1 with
     | .defHeader f p =>
       match indentedRet l2 with
       | some e => some (.defFun f p e)
       | Option.none => Option.none
     | _ => Option.none)
  | _ => Option.none

/-- Whether the last line pushed onto a pending compound statement can
still continue the block: an indented line that parses keeps the block
open (the REPL keeps prompting for more); an indented line that does not
parse, or any unindented non-blank line, produces a compile error that is
stable under appended newlines, which `codeop` re-raises at once. -/
def continuationOk (l : List Char) : Bool :=
  match l with
  | c :: _ =>
    (c = ' ' || c = '\t') &&
      (match parsedOf l with
       | .retLine _ => true
       | .stmt _ => true
       | _ => false)
  | [] => true

/-- `codeop.compile_command` in `single` mode over the console's pending
line buffer: a lone simple statement is complete; a line opening a compound
statement (a `def`, even a one-liner) waits for a terminating blank line,
as the CPython REPL does; a buffered compound statement stays incomplete
while valid indented continuation lines arrive, but a continuation that
makes the compile error stable under appended newlines (an unindented
non-blank line, or indented text that cannot parse) is an immediate
compile-time error, as `codeop._maybe_compile` re-raises such errors. -/
def compileInteractive (buf : List String) : Compiled :=
  match buf.map String.data with
  | [l] =>
    (match parsedOf l with
     | .blank => .complete []
     | .stmt s => .complete [s]
     | .defHeader _ _ => .incomplete
     | .defLine _ _ _ => .incomplete
     | .retLine _ => .badInput
     | .bad => .badInput)
  | ls =>
    if ls.getLast? = some [] then
      match parseDefBlock ls.dropLast with
      | some s => .complete [s]
      | Option.none => .badInput
    else
      match ls.getLast? with
      | some l => if continuationOk l then .incomplete else .badInput
      | Option.none => .badInput

/-- Compilation in `exec` mode (`runcode` receives raw text and `exec`s
it): every line a simple statement, or a one- or two-line `def` block;
anything else (including an unfinished block) raises at compile time. -/
def compileExec (cs : List Char) : Except PyExn (List Stmt) :=
  let ls := splitLines cs
  let simple : List (List Char) → Option (List Stmt) :=
    fun lines => lines.foldr
      (fun l acc =>
        match acc with
        | Option.none => Option.none
        | some ss =>
          match parsedOf l with
          | .blank => some ss
          | .stmt s => some (s :: ss)
          | _ => Option.none)
      (some [])
  match simple ls with
  | some ss => .ok ss
  | Option.none =>
    match parseDefBlock (if ls.getLast? = some [] then ls.dropLast else ls) with
    | some s => .ok [s]
    | Option.none => .error .compileError

/-- The state of one `code.InteractiveConsole`: its namespace and the
pending-line buffer of incremental compilation. -/
structure Sess where
  globals : Globals
  buffer : List String
deriving DecidableEq, Repr

def errTextOf : Option PyExn → String
  | some e => tracebackOf e
  | Option.none => ""

/-- `code.InteractiveConsole` as used by the plugin.  `runcode` `exec`s its
text argument against the session namespace, converting any error
(including a compile error of the text) into traceback text on stderr and
re-raising nothing; it does not touch the pending buffer.  `push` appends
the line to the pending buffer, compiles the joined buffer incrementally,
and on a complete unit (or an error) runs it and resets the buffer. -/
def InteractiveConsole : Repl Sess where
  resetbuffer st := { st with buffer := [] }
  runcode text st :=
    match compileExec text.data with
    | .error e => ⟨Option.none, "", tracebackOf e, st⟩
    | .ok prog =>
      let r := execProg false st.globals prog
      ⟨Option.none, r.2.1, errTextOf r.2.2, ⟨r.1, st.buffer⟩⟩
  push line st :=
    let buf := st.buffer ++ [line]
    match compileInteractive buf with
    | .incomplete => ⟨Option.none, "", "", ⟨st.globals, buf⟩⟩
    | .badInput => ⟨Option.none, "", tracebackOf .compileError, ⟨st.globals, []⟩⟩
    | .complete prog =>
      let r := execProg true st.globals prog
      ⟨Option.none, r.2.1, errTextOf r.2.2, ⟨r.1, []⟩⟩

/-- A console as `InteractiveConsole()` creates it: empty namespace, empty
pending buffer.  (The worker additionally injects the `help` shim at
start-up; all session-level theorems below quantify over the starting
state, so they cover that session as well.) -/
def freshSession : Sess := ⟨[], []⟩

/-- An interpreter whose `push` raises after writing partial output: used
to exhibit the `except BaseException` path of `interact` concretely. -/
def raisingRepl : Repl Unit where
  resetbuffer := id
  runcode := fun _ _ => ⟨some .typeError, "", "", ()⟩
  push := fun _ _ => ⟨some (.nameError "x"), "partial out", "partial err", ()⟩

/-!
## Theorems
-/

/-- Helper: `interact` never returns through the `.error` branch, whatever
the interpreter does (the `except BaseException` handler converts every
raised exception into stderr text). -/
theorem interact_ok (repl : Repl σ) (st : σ) (line : String) :
    ∃ p, interact repl st line = Except.ok p := by
  rcases hl : line.data with _ | ⟨c, rest⟩
  · exact ⟨(st, .empty), by simp [interact, hl]⟩
  · exact ⟨((interactEval repl st c rest).state,
      .mk (cleanupEcho (String.mk rest) (interactEval repl st c rest).out)
          (interactErrText (interactEval repl st c rest))), by simp [interact, hl]⟩

/-- Helper: empty captured stdout is never mistaken for an echo. -/
theorem cleanupEcho_empty (line : String) : cleanupEcho line "" = "" := by
  unfold cleanupEcho
  rw [if_neg]
  intro h
  have h2 := congrArg String.data h
  simp [String.data_append] at h2

/-- C10: `interact` on the empty string returns the empty result `{}` at
once, for every interpreter and every session state, leaving the session
state (namespace and pending buffer alike) untouched; and every snippet
`execute_python_code` enqueues carries a one-character mode tag in front of
the code, so it is never the empty string. -/
theorem interact_empty_line (repl : Repl σ) (st : σ) :
    interact repl st "" = .ok (st, .empty) ∧
    (∀ (code : String) (b : Bool),
      (tagSnippet code b).data = (if b then '1' else '0') :: code.data) := by
  refine ⟨rfl, fun code b => ?_⟩
  cases b <;> simp [tagSnippet, String.data_append]

/-- C7: submitting `print(1+1)` in line mode on a fresh session yields
stdout exactly `"2\n"` and empty stderr; the captured stdout is `"2\n"`
and echo suppression leaves it unchanged. -/
theorem line_mode_print_sum :
    interact InteractiveConsole freshSession "0print(1+1)" =
      .ok (freshSession, .mk "2\n" "") ∧
    (interactEval InteractiveConsole freshSession '0' "print(1+1)".data).out = "2\n" ∧
    cleanupEcho "print(1+1)" "2\n" = "2\n" := by
  refine ⟨rfl, rfl, ?_⟩
  rw [cleanupEcho, if_neg (by decide)]

/-- C5: a definition executed in block mode persists in the session
namespace: for every starting session state, evaluating
`def f(y): return y+1` with the multiline flag binds `f`, and a line-mode
evaluation of `print(f(41))` in a later call on the resulting session
prints `42`. -/
theorem block_def_persists_to_line_mode (st : Sess) :
    interact InteractiveConsole st "1def f(y): return y+1" =
      .ok (⟨("f", .fn "y" (.add (.var "y") (.lit 1))) :: st.globals, []⟩,
           .mk "" "") ∧
    interact InteractiveConsole
        ⟨("f", .fn "y" (.add (.var "y") (.lit 1))) :: st.globals, []⟩
        "0print(f(41))" =
      .ok (⟨("f", .fn "y" (.add (.var "y") (.lit 1))) :: st.globals, []⟩,
           .mk "42\n" "") :=
  ⟨rfl, rfl⟩

/-- C3: `interact` never propagates an exception to its caller: the result
is always `.ok`, whatever the interpreter does; when the evaluation raises,
the textual representation of the error is appended to the captured stderr
buffer and returned in the stderr field; and on the concrete console a
snippet whose evaluation errors yields non-empty stderr, empty stdout, an
unchanged session, and the session still evaluates the next submission. -/
theorem interact_never_propagates (repl : Repl σ) (st : σ) (line : String) :
    (∃ p, interact repl st line = Except.ok p) ∧
    (∀ c rest e, line.data = c :: rest →
      (interactEval repl st c rest).raised = some e →
      interact repl st line =
        .ok ((interactEval repl st c rest).state,
          .mk (cleanupEcho (String.mk rest) (interactEval repl st c rest).out)
              ((interactEval repl st c rest).err ++ pyRepr e))) ∧
    (interact InteractiveConsole freshSession "0boom" =
       .ok (freshSession, .mk "" (tracebackOf (.nameError "boom"))) ∧
     tracebackOf (.nameError "boom") ≠ "" ∧
     interact InteractiveConsole freshSession "0print(1+1)" =
       .ok (freshSession, .mk "2\n" "")) := by
  refine ⟨interact_ok repl st line, fun c rest e hl hr => ?_, rfl, ?_, rfl⟩
  · simp [interact, hl, interactErrText, hr]
  · intro h
    have h2 := congrArg String.data h
    simp [tracebackOf] at h2

/-- C3 witness: at a concrete interpreter whose `push` raises after
writing partial output, `interact` still returns `.ok`, with `repr` of the
raised exception appended to the partial stderr text. -/
theorem interact_never_propagates_witness :
    interact raisingRepl () (String.mk ['0', 'x']) =
      .ok ((), .mk "partial out" ("partial err" ++ pyRepr (.nameError "x"))) :=
  (interact_never_propagates raisingRepl () (String.mk ['0', 'x'])).2.1
    '0' ['x'] (.nameError "x") rfl rfl

/-- C4: every iteration of the worker loop publishes exactly one result on
the output channel — the evaluation result of `interact` when a snippet was
dequeued, and the empty placeholder `{}` on a dequeue timeout or an
internal fault — and the loop never terminates: a run over any finite
event-stream prefix consumes every event, one published result each, and a
run over a longer prefix continues from where the shorter one stopped. -/
theorem worker_publishes_exactly_one (repl : Repl σ) (st : σ) :
    (∀ ev, (workerStep repl st ev).2.length = 1) ∧
    (workerStep repl st .timeout = (st, [.empty])) ∧
    (workerStep repl st .fault = (st, [.empty])) ∧
    (∀ line st2 r, interact repl st line = .ok (st2, r) →
      workerStep repl st (.recv line) = (st2, [r])) ∧
    (∀ evs, (workerRun repl st evs).2.length = evs.length) ∧
    (∀ evs1 evs2, workerRun repl st (evs1 ++ evs2) =
      ((workerRun repl (workerRun repl st evs1).1 evs2).1,
       (workerRun repl st evs1).2 ++
         (workerRun repl (workerRun repl st evs1).1 evs2).2)) := by
  have hstep : ∀ (st : σ) ev, (workerStep repl st ev).2.length = 1 := by
    intro st ev
    cases ev with
    | recv line =>
      obtain ⟨p, hp⟩ := interact_ok repl st line
      simp [workerStep, hp]
    | timeout => rfl
    | fault => rfl
  have hlen : ∀ evs (st : σ), (workerRun repl st evs).2.length = evs.length := by
    intro evs
    induction evs with
    | nil => intro st; rfl
    | cons ev evs ih =>
      intro st
      simp [workerRun, hstep st ev, ih]
      omega
  have happ : ∀ evs1 (st : σ) evs2, workerRun repl st (evs1 ++ evs2) =
      ((workerRun repl (workerRun repl st evs1).1 evs2).1,
       (workerRun repl st evs1).2 ++
         (workerRun repl (workerRun repl st evs1).1 evs2).2) := by
    intro evs1
    induction evs1 with
    | nil => intro st evs2; simp [workerRun]
    | cons ev evs ih =>
      intro st evs2
      simp [workerRun, ih]
  exact ⟨hstep st, rfl, rfl, fun line st2 r h => by simp [workerStep, h],
    fun evs => hlen evs st, fun evs1 evs2 => happ evs1 st evs2⟩

/-- C4 witness: one iteration on a dequeued snippet publishes exactly the
evaluation result of that snippet. -/
theorem worker_publishes_exactly_one_witness :
    workerStep InteractiveConsole freshSession (.recv "0print(1+1)") =
      (freshSession, [EvalResult.mk "2\n" ""]) :=
  (worker_publishes_exactly_one InteractiveConsole freshSession).2.2.2.1
    "0print(1+1)" freshSession (.mk "2\n" "") rfl

/-- C6: on a snippet tagged `'1'` (block mode) `interact` first clears the
pending incomplete-statement buffer — its outcome is independent of the
buffered lines — and then compiles and executes the snippet text as one
complete code block against the session namespace; on a snippet tagged
`'0'` (line mode) it instead pushes the text with incremental REPL
semantics: a still-incomplete statement leaves the pending buffer extended
by the new line, not cleared, while a pushed line whose compile error is
stable gets the error shown on stderr and only then a buffer reset. -/
theorem block_mode_clears_pending_buffer (g : Globals) (b1 b2 : List String)
    (s : String) :
    interact InteractiveConsole ⟨g, b1⟩ (String.mk ('1' :: s.data)) =
      interact InteractiveConsole ⟨g, b2⟩ (String.mk ('1' :: s.data)) ∧
    (∀ prog, compileExec s.data = .ok prog →
      interact InteractiveConsole ⟨g, b1⟩ (String.mk ('1' :: s.data)) =
        .ok (⟨(execProg false g prog).1, []⟩,
          .mk (cleanupEcho s (execProg false g prog).2.1)
              (errTextOf (execProg false g prog).2.2))) ∧
    (compileInteractive (b1 ++ [s]) = .incomplete →
      interact InteractiveConsole ⟨g, b1⟩ (String.mk ('0' :: s.data)) =
        .ok (⟨g, b1 ++ [s]⟩, .mk "" "")) ∧
    (compileInteractive (b1 ++ [s]) = .badInput →
      interact InteractiveConsole ⟨g, b1⟩ (String.mk ('0' :: s.data)) =
        .ok (⟨g, []⟩, .mk "" (tracebackOf .compileError))) := by
  refine ⟨rfl, fun prog h => ?_, fun h => ?_, fun h => ?_⟩
  · simp [interact, interactEval, InteractiveConsole, h, interactErrText]
  · simp [interact, interactEval, InteractiveConsole, h, interactErrText,
      cleanupEcho_empty]
  · simp [interact, interactEval, InteractiveConsole, h, interactErrText,
      cleanupEcho_empty]

/-- C6 witness: with `def g(y):` pending in the buffer, a block-mode
`x = 7` runs identically to the same snippet on an empty buffer and
against the namespace only; a line-mode push of the valid indented
continuation `    return y+1` keeps and extends the pending buffer instead
of clearing it; and a line-mode push of the unindented `x = 7` (a stable
compile error in CPython) shows the error and resets the buffer. -/
theorem block_mode_clears_pending_buffer_witness :
    interact InteractiveConsole ⟨[], ["def g(y):"]⟩ (String.mk ('1' :: "x = 7".data)) =
      interact InteractiveConsole ⟨[], []⟩ (String.mk ('1' :: "x = 7".data)) ∧
    interact InteractiveConsole ⟨[], ["def g(y):"]⟩ (String.mk ('1' :: "x = 7".data)) =
      .ok (⟨[("x", .int 7)], []⟩, .mk "" "") ∧
    interact InteractiveConsole ⟨[], ["def g(y):"]⟩
        (String.mk ('0' :: "    return y+1".data)) =
      .ok (⟨[], ["def g(y):", "    return y+1"]⟩, .mk "" "") ∧
    interact InteractiveConsole ⟨[], ["def g(y):"]⟩ (String.mk ('0' :: "x = 7".data)) =
      .ok (⟨[], []⟩, .mk "" (tracebackOf .compileError)) :=
  ⟨(block_mode_clears_pending_buffer [] ["def g(y):"] [] "x = 7").1,
   (block_mode_clears_pending_buffer [] ["def g(y):"] [] "x = 7").2.1
     [.assign "x" (.lit 7)] rfl,
   (block_mode_clears_pending_buffer [] ["def g(y):"] [] "    return y+1").2.2.1 rfl,
   (block_mode_clears_pending_buffer [] ["def g(y):"] [] "x = 7").2.2.2 rfl⟩

/-- C2 counterexample: the suppression test compares the captured stdout
against the whitespace-stripped input line, not the input line itself.
For the line-mode snippet with text `"2 "` (trailing blank) the captured
stdout of the evaluation is `"2\n"`, which is not the input line followed
by a newline (`"2 \n"`), so the claim says it is returned unchanged — yet
`interact` returns an empty stdout field. -/
theorem echo_suppression_strip_cex :
    (interactEval InteractiveConsole freshSession '0' "2 ".data).out = "2\n" ∧
    ("2\n" : String) ≠ String.mk "2 ".data ++ "\n" ∧
    interact InteractiveConsole freshSession (String.mk ('0' :: "2 ".data)) =
      .ok (freshSession, .mk "" "") := by
  refine ⟨rfl, by decide, rfl⟩

/-- C2 as amended: `interact` returns as its stdout field the captured
stdout passed through `cleanupEcho`, and `cleanupEcho` suppresses the
captured stdout exactly when it equals the *whitespace-stripped* input
line followed by a single trailing newline, returning any other captured
stdout unchanged. -/
theorem echo_suppression_amended (repl : Repl σ) (st : σ) (c : Char)
    (rest : List Char) (line buffer : String) :
    interact repl st (String.mk (c :: rest)) =
      .ok ((interactEval repl st c rest).state,
        .mk (cleanupEcho (String.mk rest) (interactEval repl st c rest).out)
            (interactErrText (interactEval repl st c rest))) ∧
    (buffer = pyStrip line ++ "\n" → cleanupEcho line buffer = "") ∧
    (buffer ≠ pyStrip line ++ "\n" → cleanupEcho line buffer = buffer) := by
  refine ⟨rfl, fun h => ?_, fun h => ?_⟩ <;> simp [cleanupEcho, h]

/-- C2 amended witness: on the concrete console, `"2\n"` captured for the
stripped line `"2"` of input `"2 "` is suppressed, while `"9\n"` is
returned unchanged. -/
theorem echo_suppression_amended_witness :
    cleanupEcho "2 " "2\n" = "" ∧ cleanupEcho "2 " "9\n" = "9\n" :=
  ⟨(echo_suppression_amended InteractiveConsole freshSession '0' []
      "2 " "2\n").2.1 (by decide),
   (echo_suppression_amended InteractiveConsole freshSession '0' []
      "2 " "9\n").2.2 (by decide)⟩

/-- C1 counterexample: in a waiting episode of two consecutive dequeue
timeouts (the user declining termination at the first prompt), the pump
prompts at *both* invocations, where the claimed policy prompts only at the
first: the `queue_count` guard is re-initialised on every invocation and
the single dequeue precedes any increment, so no timeout is ever
"subsequent" in its own invocation. -/
theorem stall_prompt_cex :
    pumpPrompts [.timeout, .timeout] = [true, true] ∧
    claimedPromptPolicy false [.timeout, .timeout] = [true, false] ∧
    pumpPrompts [.timeout, .timeout] ≠
      claimedPromptPolicy false [.timeout, .timeout] := by
  decide

/-- C1 as amended: the pump shows the termination prompt on *every*
dequeue timeout, also on subsequent timeouts of the same waiting episode:
the local counter is re-created at zero in each invocation and the dequeue
is attempted once per invocation, so the non-zero branch of the `except
Empty` handler is unreachable and every timeout prompts. -/
theorem stall_prompt_every_timeout (ds : List Dequeue) :
    pumpPrompts ds =
      ds.map (fun d => match d with | .timeout => true | .got _ => false) := by
  induction ds with
  | nil => rfl
  | cons d ds ih =>
    cases d with
    | got r => cases r <;> simp [pumpPrompts, print_result, ih]
    | timeout => simp [pumpPrompts, print_result, ih]

/-- C8: the input channel is constructed unbounded, so enqueueing a
snippet never blocks whatever is already queued, while the output channel
is constructed with fixed capacity 256: a publish onto it blocks exactly
when 256 results are undrained, and draining a single result unblocks the
next publish (backpressure). -/
theorem channel_capacity_backpressure :
    (∀ (items : List String) (line : String),
      (PyQueue.put ⟨queue_input.maxsize, items⟩ line).isSome = true) ∧
    queue_output.maxsize = 256 ∧
    (∀ (q : PyQueue EvalResult) (r : EvalResult),
      q.maxsize = queue_output.maxsize → q.items.length = queue_output.maxsize →
      q.put r = Option.none) ∧
    (∀ (q : PyQueue EvalResult) (r x : EvalResult) (q2 : PyQueue EvalResult),
      q.maxsize = queue_output.maxsize → q.items.length = queue_output.maxsize →
      q.get = some (x, q2) → (q2.put r).isSome = true) := by
  refine ⟨fun items line => ?_, rfl, fun q r h1 h2 => ?_, fun q r x q2 h1 h2 h3 => ?_⟩
  · simp [PyQueue.put, PyQueue.full, queue_input]
  · simp [PyQueue.put, PyQueue.full, queue_output] at h1 h2 ⊢
    simp [h1, h2]
  · rcases q with ⟨m, items⟩
    rcases items with _ | ⟨a, rest⟩
    · simp [PyQueue.get] at h3
    · simp [PyQueue.get] at h3
      simp [queue_output] at h1 h2
      rcases h3 with ⟨hx, hq2⟩
      subst hq2
      simp [PyQueue.put, PyQueue.full, h1]
      omega

/-- C8 witness: with exactly 256 undrained results, a publish blocks; after
one dequeue, the next publish succeeds. -/
theorem channel_capacity_backpressure_witness :
    (PyQueue.put ⟨queue_input.maxsize, ["0x", "1y"]⟩ "02+2").isSome = true ∧
    PyQueue.put ⟨256, List.replicate 256 EvalResult.empty⟩ EvalResult.empty =
      Option.none ∧
    (PyQueue.put ⟨256, List.replicate 255 EvalResult.empty⟩
      EvalResult.empty).isSome = true :=
  ⟨(channel_capacity_backpressure).1 ["0x", "1y"] "02+2",
   (channel_capacity_backpressure).2.2.1 ⟨256, List.replicate 256 .empty⟩
     .empty rfl (by exact List.length_replicate ..),
   (channel_capacity_backpressure).2.2.2 ⟨256, List.replicate 256 .empty⟩
     .empty .empty ⟨256, List.replicate 255 .empty⟩ rfl
     (by exact List.length_replicate ..)
     (by rw [show (256 : Nat) = 255 + 1 from rfl, List.replicate_succ]; rfl)⟩

/-- C9: a dequeued non-empty result makes the pump insert the stdout text
when non-empty, surface the stderr text in the panel when non-empty, show
no prompt and reschedule; a dequeued empty placeholder makes it reschedule
with no insertion, no panel and no prompt; hence a steady stream of
placeholders never triggers the stall prompt. -/
theorem pump_applies_results (out err : String) (u : Bool) (n : Nat) :
    (out ≠ "" → (print_result (.got (.mk out err)) u).inserted = some out) ∧
    (err ≠ "" → (print_result (.got (.mk out err)) u).panel = some err) ∧
    (print_result (.got (.mk out err)) u).prompted = false ∧
    (print_result (.got (.mk out err)) u).rescheduled = true ∧
    print_result (.got .empty) u =
      ⟨Option.none, Option.none, false, false, true⟩ ∧
    pumpPrompts (List.replicate n (.got .empty)) = List.replicate n false := by
  refine ⟨fun h => by simp [print_result, h], fun h => by simp [print_result, h],
    rfl, rfl, rfl, ?_⟩
  induction n with
  | zero => rfl
  | succ n ih => simp [List.replicate_succ, pumpPrompts, print_result, ih]

/-- C9 witness: a concrete non-empty result is applied and rescheduled
without prompting, and three placeholders in a row prompt nobody. -/
theorem pump_applies_results_witness :
    (print_result (.got (.mk "2\n" "boom")) false).inserted = some "2\n" ∧
    (print_result (.got (.mk "2\n" "boom")) false).panel = some "boom" ∧
    (print_result (.got (.mk "2\n" "boom")) false).prompted = false ∧
    (print_result (.got (.mk "2\n" "boom")) false).rescheduled = true ∧
    print_result (.got .empty) false =
      ⟨Option.none, Option.none, false, false, true⟩ ∧
    pumpPrompts (List.replicate 3 (.got .empty)) = List.replicate 3 false :=
  ⟨(pump_applies_results "2\n" "boom" false 3).1 (by decide),
   (pump_applies_results "2\n" "boom" false 3).2.1 (by decide),
   (pump_applies_results "2\n" "boom" false 3).2.2.1,
   (pump_applies_results "2\n" "boom" false 3).2.2.2.1,
   (pump_applies_results "2\n" "boom" false 3).2.2.2.2.1,
   (pump_applies_results "2\n" "boom" false 3).2.2.2.2.2⟩

end Pycalc
